import Mathlib

/-!
Shallow embedding of the gravity-simulator core (`src/body.py`, with the
`src/main.py` variant where the two differ), together with theorems checking
the specification's claims about it.

Python floats are modelled as real numbers (the claims are stated in exact
arithmetic); Python lists as Lean lists; in-place mutation as explicit state
passing.  The mutating loops of `Body.update_force` /
`main`'s force pass iterate over a list that shrinks while being traversed;
they are modelled index-faithfully (a Python list iterator keeps an integer
cursor that is not adjusted when `list.remove` shifts elements), with a fuel
argument that is always at least the number of remaining iterations.
-/

noncomputable section

/-- Real cube root, as computed by Python's `math.cbrt` (odd extension of
`x ^ (1/3)` to negative inputs). -/
def cbrt (x : ℝ) : ℝ := if x < 0 then -((-x) ^ ((1 : ℝ) / 3)) else x ^ ((1 : ℝ) / 3)

/-- Python's `math.atan2 y x`: the argument of the complex number `x + y i`,
in `(-π, π]`. -/
def atan2 (y x : ℝ) : ℝ := Complex.arg ⟨x, y⟩

/-- The data attributes of the Python class `Body` (src/body.py).
`acceleration_x/y` are omitted: in the source they are locals of
`update_position` stored on the object but never read elsewhere. -/
structure Body where
  name : String
  mass : ℝ
  position_x : ℝ
  position_y : ℝ
  velocity_x : ℝ
  velocity_y : ℝ
  color : List ℤ
  force_x : ℝ
  force_y : ℝ
  trail : List (ℝ × ℝ)
  radius : ℝ
  momentum_x : ℝ
  momentum_y : ℝ

instance : Inhabited Body :=
  ⟨⟨"", 0, 0, 0, 0, 0, [], 0, 0, [], 0, 0, 0⟩⟩

namespace Body

/-- `Body._update_radius` (src/body.py lines 31-35): radius from the volume
of a sphere of density 1.0. -/
def _update_radius (self : Body) : Body :=
  { self with radius := cbrt ((3 * self.mass) / (4 * Real.pi * 1.0)) }

/-- `Body._update_momentum` (src/body.py lines 91-94). -/
def _update_momentum (self : Body) : Body :=
  { self with momentum_x := self.mass * self.velocity_x
              momentum_y := self.mass * self.velocity_y }

/-- `Body._reset_force` (src/body.py lines 86-89). -/
def _reset_force (self : Body) : Body :=
  { self with force_x := 0.0, force_y := 0.0 }

/-- `Body.__init__` (src/body.py lines 5-29).  The `radius`, `momentum_x`,
`momentum_y` fields are set by the two helper calls at the end of the
constructor; the `0` placeholders below are overwritten by them. -/
def init (name : String) (mass position_x position_y velocity_x velocity_y : ℝ)
    (color : List ℤ) : Body :=
  (({ name := name, mass := mass, position_x := position_x, position_y := position_y
      velocity_x := velocity_x, velocity_y := velocity_y, color := color
      force_x := 0.0, force_y := 0.0, trail := []
      radius := 0, momentum_x := 0, momentum_y := 0 : Body
    })._update_radius)._update_momentum

/-- The gravitational constant `G` of `Body._update_force` (src/body.py
line 48). -/
def G : ℝ := 1.0

/-- `Body.combine` (src/body.py lines 96-124), modelled on the pair
`(self, second_body)`: every assignment in the source targets a field of
`self`; the pair records the state of both objects after the call.  The
caller (`_update_force`) additionally removes `second_body` from the bodies
list, which is modelled in `update_force_step` below.  Note the source
updates `self.mass` before computing the weighted position, so the position
weights read the already-combined mass. -/
def combinePair (self second : Body) : Body × Body :=
  let self := { self with mass := self.mass + second.mass }
  let self := self._update_radius
  let self := { self with
    position_x := self.position_x * (self.mass / (self.mass + second.mass))
      + second.position_x * (second.mass / (self.mass + second.mass))
    position_y := self.position_y * (self.mass / (self.mass + second.mass))
      + second.position_y * (second.mass / (self.mass + second.mass)) }
  let self := { self with momentum_x := self.momentum_x + second.momentum_x
                          momentum_y := self.momentum_y + second.momentum_y }
  let self := { self with velocity_x := self.momentum_x / self.mass
                          velocity_y := self.momentum_y / self.mass }
  let self := { self with
    color := List.zipWith (fun c1 c2 => Int.fdiv (c1 + c2) 2) self.color second.color }
  let self := { self with trail := [] }
  (self, second)

/-- The surviving body produced by `Body.combine`. -/
def combine (self second : Body) : Body := (combinePair self second).1

/-- The Euclidean centre distance `d` computed in `Body._update_force`
(src/body.py lines 50-52). -/
def dist (self second : Body) : ℝ :=
  Real.sqrt ((self.position_x - second.position_x) ^ 2
    + (self.position_y - second.position_y) ^ 2)

/-- `Body._update_force` (src/body.py lines 44-65) restricted to its effect
on `self`: returns the updated `self` together with `true` when the pair
overlapped and was merged (in which case the caller must also remove
`second` from the list, see `update_force_step`).  In the merge branch the
source sets `force = 0` and still executes the two `+= force * ...` lines,
which add zero. -/
def _update_force (self second : Body) : Body × Bool :=
  let dx := self.position_x - second.position_x
  let dy := self.position_y - second.position_y
  let d := Real.sqrt (dx ^ 2 + dy ^ 2)
  if d ≤ self.radius + second.radius then
    let self := combine self second
    let angle := atan2 dy dx
    ({ self with force_x := self.force_x + 0 * Real.cos angle
                 force_y := self.force_y + 0 * Real.sin angle }, true)
  else
    let force := -(G * self.mass * second.mass) / d ^ 2
    let angle := atan2 dy dx
    ({ self with force_x := self.force_x + force * Real.cos angle
                 force_y := self.force_y + force * Real.sin angle }, false)

/-- One iteration of the `for second_body in bodies` loop of
`Body.update_force`, for `self = bodies[i]` and `second_body = bodies[j]`
(with `i ≠ j` already checked by the caller): run `_update_force`; on a
merge, `bodies.remove(second_body)` deletes index `j`, shifting `self` to
index `i - 1` when `j < i`.  Returns the new list and the new index of
`self`. -/
def update_force_step (bodies : List Body) (i j : ℕ) : List Body × ℕ :=
  let self := bodies.getD i default
  let second := bodies.getD j default
  let res := _update_force self second
  if res.2 then
    ((bodies.set i res.1).eraseIdx j, if j < i then i - 1 else i)
  else
    (bodies.set i res.1, i)

/-- The `for second_body in bodies` loop of `Body.update_force`
(src/body.py lines 37-42) for `self = bodies[i]`, starting at cursor `j`.
The Python iterator advances its cursor by one each round regardless of
removals and stops once the cursor reaches the current length; `fuel`
bounds the number of rounds and is always called with enough. -/
def update_force_loop : ℕ → List Body → ℕ → ℕ → List Body × ℕ
  | 0, bodies, i, _ => (bodies, i)
  | Nat.succ fuel, bodies, i, j =>
    if j < bodies.length then
      if i = j then
        update_force_loop fuel bodies i (j + 1)
      else
        let st := update_force_step bodies i j
        update_force_loop fuel st.1 st.2 (j + 1)
    else (bodies, i)

/-- `Body.update_force` for `self = bodies[i]`: the list never grows, so
`bodies.length` rounds of fuel always suffice. -/
def update_force (bodies : List Body) (i : ℕ) : List Body × ℕ :=
  update_force_loop bodies.length bodies i 0

/-- `Body.update_position` (src/body.py lines 67-84): semi-implicit Euler
step, then reset the force accumulator and recompute momentum. -/
def update_position (self : Body) (timestep : ℝ) : Body :=
  let acceleration_x := self.force_x / self.mass
  let acceleration_y := self.force_y / self.mass
  let self := { self with
    velocity_x := self.velocity_x + acceleration_x * timestep
    velocity_y := self.velocity_y + acceleration_y * timestep }
  let self := { self with
    position_x := self.position_x + self.velocity_x * timestep
    position_y := self.position_y + self.velocity_y * timestep }
  (self._reset_force)._update_momentum

/-- `Body.update_trail` (src/body.py lines 126-138): append the current
position; `trail.pop(0)` when the length exceeds `trail_max`. -/
def update_trail (self : Body) (framerate : ℕ) : Body :=
  let trail_max := framerate
  let self := { self with trail := self.trail ++ [(self.position_x, self.position_y)] }
  if trail_max < self.trail.length then { self with trail := self.trail.drop 1 }
  else self

end Body

/-- The force pass of the game loop (src/main.py lines 319-321):
`for body in bodies: body.update_force(bodies)`.  The outer iterator also
keeps a plain integer cursor, unadjusted when merges shrink the list. -/
def update_force_pass : ℕ → List Body → ℕ → List Body
  | 0, bodies, _ => bodies
  | Nat.succ fuel, bodies, i =>
    if i < bodies.length then
      update_force_pass fuel (Body.update_force bodies i).1 (i + 1)
    else bodies

/-- The whole force-computation phase of one tick. -/
def forcePhase (bodies : List Body) : List Body :=
  update_force_pass bodies.length bodies 0

/-- One tick of the game loop restricted to the simulation core
(src/main.py lines 319-327): the force pass over all bodies, then
`update_position` and `update_trail` for each surviving body. -/
def tick (bodies : List Body) (timestep : ℝ) (framerate : ℕ) : List Body :=
  (forcePhase bodies).map fun b => (b.update_position timestep).update_trail framerate

/-- `n` consecutive ticks. -/
def tickN (bodies : List Body) (timestep : ℝ) (framerate : ℕ) : ℕ → List Body
  | 0 => bodies
  | Nat.succ n => tick (tickN bodies timestep framerate n) timestep framerate

/-- The position update of `Body.combine` in the src/main.py variant
(lines 105-106): a naive midpoint, not a mass-weighted barycenter. -/
def main_combine_position_x (self_position_x second_position_x : ℝ) : ℝ :=
  (self_position_x + second_position_x) / 2

/-- Total momentum (sum of mass times velocity) of a body list,
x component. -/
def totalMomentumX (bodies : List Body) : ℝ :=
  (bodies.map fun b => b.mass * b.velocity_x).sum

/-- Total momentum, y component. -/
def totalMomentumY (bodies : List Body) : ℝ :=
  (bodies.map fun b => b.mass * b.velocity_y).sum

/-- Total mass of a body list. -/
def totalMass (bodies : List Body) : ℝ :=
  (bodies.map Body.mass).sum

/-- A body record with the given mass, position, velocity and radius, zero
accumulated force, consistent momentum, empty trail: the state an
already-simulated body has at a tick boundary.  Used for concrete test
configurations. -/
def mkBody (m px py vx vy r : ℝ) : Body :=
  { name := "", mass := m, position_x := px, position_y := py
    velocity_x := vx, velocity_y := vy, color := []
    force_x := 0, force_y := 0, trail := []
    radius := r, momentum_x := m * vx, momentum_y := m * vy }

/-! ### Basic lemmas about the embedded operations -/

lemma Body.dist_comm (a b : Body) : Body.dist a b = Body.dist b a := by
  unfold Body.dist
  congr 1
  ring

lemma Body.dist_nonneg (a b : Body) : 0 ≤ Body.dist a b := Real.sqrt_nonneg _

lemma cos_atan2 (y x : ℝ) (h : x ^ 2 + y ^ 2 ≠ 0) :
    Real.cos (atan2 y x) = x / Real.sqrt (x ^ 2 + y ^ 2) := by
  have hz : (⟨x, y⟩ : ℂ) ≠ 0 := by
    intro hc
    have hx : x = 0 := by simpa using congrArg Complex.re hc
    have hy : y = 0 := by simpa using congrArg Complex.im hc
    rw [hx, hy] at h
    simp at h
  have habs : Complex.abs ⟨x, y⟩ = Real.sqrt (x ^ 2 + y ^ 2) := by
    rw [Complex.abs_apply, Complex.normSq_mk]
    congr 1
    ring
  rw [atan2, Complex.cos_arg hz, habs]

lemma sin_atan2 (y x : ℝ) :
    Real.sin (atan2 y x) = y / Real.sqrt (x ^ 2 + y ^ 2) := by
  have habs : Complex.abs ⟨x, y⟩ = Real.sqrt (x ^ 2 + y ^ 2) := by
    rw [Complex.abs_apply, Complex.normSq_mk]
    congr 1
    ring
  rw [atan2, Complex.sin_arg, habs]

/-- The x component of the force increment the non-overlap branch of
`_update_force` adds to `self`, with the trigonometry already rewritten:
`force * cos(atan2 dy dx) = force * (dx / d)`. -/
def fAddX (a b : Body) : ℝ :=
  -(Body.G * a.mass * b.mass) / Body.dist a b ^ 2
    * ((a.position_x - b.position_x) / Body.dist a b)

/-- The y component of the force increment of the non-overlap branch. -/
def fAddY (a b : Body) : ℝ :=
  -(Body.G * a.mass * b.mass) / Body.dist a b ^ 2
    * ((a.position_y - b.position_y) / Body.dist a b)

lemma fAddX_antisymm (a b : Body) : fAddX b a = -fAddX a b := by
  unfold fAddX
  rw [Body.dist_comm b a]
  ring

lemma fAddY_antisymm (a b : Body) : fAddY b a = -fAddY a b := by
  unfold fAddY
  rw [Body.dist_comm b a]
  ring

lemma combine_mass (a b : Body) : (Body.combine a b).mass = a.mass + b.mass := rfl

lemma combine_force_x (a b : Body) : (Body.combine a b).force_x = a.force_x := rfl

lemma combine_force_y (a b : Body) : (Body.combine a b).force_y = a.force_y := rfl

lemma combine_trail (a b : Body) : (Body.combine a b).trail = [] := rfl

lemma eta_force (b : Body) :
    ({ b with force_x := b.force_x, force_y := b.force_y } : Body) = b := rfl

/-- In the overlap branch, `_update_force` returns the merged body (the
`force += 0 * _` statements add nothing) and the merge flag. -/
lemma _update_force_near (self second : Body)
    (h : Body.dist self second ≤ self.radius + second.radius) :
    Body._update_force self second = (Body.combine self second, true) := by
  unfold Body._update_force
  dsimp only
  rw [show Real.sqrt ((self.position_x - second.position_x) ^ 2
        + (self.position_y - second.position_y) ^ 2) = Body.dist self second from rfl]
  rw [if_pos h]
  rw [zero_mul, zero_mul, add_zero, add_zero, eta_force]

/-- In the non-overlap branch, `_update_force` adds the gravitational force
increment `fAddX`/`fAddY` to the accumulator and reports no merge. -/
lemma _update_force_far (self second : Body)
    (h : self.radius + second.radius < Body.dist self second)
    (h0 : 0 ≤ self.radius + second.radius) :
    Body._update_force self second =
      ({ self with force_x := self.force_x + fAddX self second
                   force_y := self.force_y + fAddY self second }, false) := by
  have hd : (0 : ℝ) < Body.dist self second := lt_of_le_of_lt h0 h
  have hsq : (self.position_x - second.position_x) ^ 2
      + (self.position_y - second.position_y) ^ 2 ≠ 0 := by
    intro hc
    rw [Body.dist, hc, Real.sqrt_zero] at hd
    exact lt_irrefl 0 hd
  unfold Body._update_force
  dsimp only
  rw [show Real.sqrt ((self.position_x - second.position_x) ^ 2
        + (self.position_y - second.position_y) ^ 2) = Body.dist self second from rfl]
  rw [if_neg (not_le.mpr h)]
  rw [cos_atan2 _ _ hsq, sin_atan2]
  rw [show Real.sqrt ((self.position_x - second.position_x) ^ 2
        + (self.position_y - second.position_y) ^ 2) = Body.dist self second from rfl]
  rfl

/-! ### Concrete bodies for the spec's merge scenario -/

/-- Body A of the spec's merge scenario: mass 10, position `(0,0)`,
velocity `(2,0)` (hence momentum `(20,0)`), with a radius large enough to
overlap B. -/
def A1 : Body := mkBody 10 0 0 2 0 10

/-- Body B of the spec's merge scenario: mass 30, position `(1,0)`, at
rest. -/
def B1 : Body := mkBody 30 1 0 0 0 10

/-- C1: the claim says the surviving body's position is the mass-weighted
barycenter of the pre-merge positions, `x = 0.75` for the scenario
A(mass 10, x 0), B(mass 30, x 1).  The code disagrees at that input:
`src/body.py` updates `self.mass` to 40 before computing the weights, so it
returns `0·(40/70) + 1·(30/70) = 3/7`, and the `src/main.py` variant uses
the naive midpoint `1/2`; neither equals the claimed `3/4`. -/
theorem C1_combine_position_not_barycenter :
    (Body.combine A1 B1).position_x = 3 / 7 ∧
    main_combine_position_x A1.position_x B1.position_x = 1 / 2 ∧
    ((3 : ℝ) / 7 ≠ 3 / 4) ∧ ((1 : ℝ) / 2 ≠ 3 / 4) := by
  refine ⟨?_, ?_, by norm_num, by norm_num⟩
  · show (Body.combinePair A1 B1).1.position_x = 3 / 7
    simp only [Body.combinePair, Body._update_radius, A1, B1, mkBody]
    norm_num
  · simp only [main_combine_position_x, A1, B1, mkBody]
    norm_num

/-- C4: for a pair of distinct bodies, if `d ≤ r1 + r2` the pair adds no
force to either accumulator and is merged instead; otherwise body 1
receives the vector of magnitude `F = G·m1·m2/d²` pointing along the line
joining the centres (`Fx = -F·cos θ`, `Fy = -F·sin θ` with
`θ = atan2 Δy Δx`, i.e. `-F·Δx/d`, `-F·Δy/d`), and the call with the two
bodies swapped — which the tick performs for the reversed pair — adds
exactly the opposite vector to body 2. -/
theorem C4_pairwise_force (self second : Body)
    (h0 : 0 ≤ self.radius + second.radius) :
    (Body.dist self second ≤ self.radius + second.radius →
      ((Body._update_force self second).1.force_x = self.force_x ∧
       (Body._update_force self second).1.force_y = self.force_y ∧
       (Body._update_force self second).2 = true ∧
       (Body._update_force second self).1.force_x = second.force_x ∧
       (Body._update_force second self).1.force_y = second.force_y ∧
       (Body._update_force second self).2 = true)) ∧
    (self.radius + second.radius < Body.dist self second →
      ((Body._update_force self second).1.force_x
          = self.force_x - Body.G * self.mass * second.mass / Body.dist self second ^ 2
              * ((self.position_x - second.position_x) / Body.dist self second) ∧
       (Body._update_force self second).1.force_y
          = self.force_y - Body.G * self.mass * second.mass / Body.dist self second ^ 2
              * ((self.position_y - second.position_y) / Body.dist self second) ∧
       (Body._update_force self second).2 = false ∧
       (Body._update_force second self).1.force_x
          = second.force_x + Body.G * self.mass * second.mass / Body.dist self second ^ 2
              * ((self.position_x - second.position_x) / Body.dist self second) ∧
       (Body._update_force second self).1.force_y
          = second.force_y + Body.G * self.mass * second.mass / Body.dist self second ^ 2
              * ((self.position_y - second.position_y) / Body.dist self second) ∧
       (Body._update_force second self).2 = false)) := by
  constructor
  · intro h
    have h' : Body.dist second self ≤ second.radius + self.radius := by
      rw [Body.dist_comm second self, add_comm]
      exact h
    rw [_update_force_near self second h, _update_force_near second self h']
    exact ⟨combine_force_x self second, combine_force_y self second, rfl,
      combine_force_x second self, combine_force_y second self, rfl⟩
  · intro h
    have h' : second.radius + self.radius < Body.dist second self := by
      rw [Body.dist_comm second self, add_comm]
      exact h
    have h0' : 0 ≤ second.radius + self.radius := by rw [add_comm]; exact h0
    rw [_update_force_far self second h h0, _update_force_far second self h' h0']
    refine ⟨?_, ?_, rfl, ?_, ?_, rfl⟩
    · show self.force_x + fAddX self second = _
      unfold fAddX
      ring
    · show self.force_y + fAddY self second = _
      unfold fAddY
      ring
    · show second.force_x + fAddX second self = _
      rw [fAddX_antisymm]
      unfold fAddX
      ring
    · show second.force_y + fAddY second self = _
      rw [fAddY_antisymm]
      unfold fAddY
      ring

/-- First body of the non-overlapping concrete pair used by witnesses. -/
def D1 : Body := mkBody 10 0 0 0 0 1

/-- Second body of the non-overlapping concrete pair used by witnesses:
distance 3 from `D1`, radii summing to 2. -/
def D2 : Body := mkBody 20 3 0 0 0 1

/-- Witness for C4 at the concrete pair `D1`, `D2` (radius 1 each). -/
theorem C4_pairwise_force_witness :
    (0 ≤ D1.radius + D2.radius) ∧
    ((Body.dist D1 D2 ≤ D1.radius + D2.radius →
      ((Body._update_force D1 D2).1.force_x = D1.force_x ∧
       (Body._update_force D1 D2).1.force_y = D1.force_y ∧
       (Body._update_force D1 D2).2 = true ∧
       (Body._update_force D2 D1).1.force_x = D2.force_x ∧
       (Body._update_force D2 D1).1.force_y = D2.force_y ∧
       (Body._update_force D2 D1).2 = true)) ∧
    (D1.radius + D2.radius < Body.dist D1 D2 →
      ((Body._update_force D1 D2).1.force_x
          = D1.force_x - Body.G * D1.mass * D2.mass / Body.dist D1 D2 ^ 2
              * ((D1.position_x - D2.position_x) / Body.dist D1 D2) ∧
       (Body._update_force D1 D2).1.force_y
          = D1.force_y - Body.G * D1.mass * D2.mass / Body.dist D1 D2 ^ 2
              * ((D1.position_y - D2.position_y) / Body.dist D1 D2) ∧
       (Body._update_force D1 D2).2 = false ∧
       (Body._update_force D2 D1).1.force_x
          = D2.force_x + Body.G * D1.mass * D2.mass / Body.dist D1 D2 ^ 2
              * ((D1.position_x - D2.position_x) / Body.dist D1 D2) ∧
       (Body._update_force D2 D1).1.force_y
          = D2.force_y + Body.G * D1.mass * D2.mass / Body.dist D1 D2 ^ 2
              * ((D1.position_y - D2.position_y) / Body.dist D1 D2) ∧
       (Body._update_force D2 D1).2 = false))) :=
  ⟨by norm_num [D1, D2, mkBody], C4_pairwise_force D1 D2 (by norm_num [D1, D2, mkBody])⟩

/-- C5: `update_position` is a semi-implicit Euler step: velocity is
updated first by `(force/mass)·dt`, the position then advances by the
just-updated velocity times `dt`, momentum is recomputed as `mass·velocity`
of the new state, and the force accumulator is reset to zero; the mass is
untouched. -/
theorem C5_update_position_semi_implicit (b : Body) (dt : ℝ)
    (hm : 0 < b.mass) (hdt : 0 < dt) :
    (b.update_position dt).velocity_x = b.velocity_x + b.force_x / b.mass * dt ∧
    (b.update_position dt).velocity_y = b.velocity_y + b.force_y / b.mass * dt ∧
    (b.update_position dt).position_x
      = b.position_x + (b.velocity_x + b.force_x / b.mass * dt) * dt ∧
    (b.update_position dt).position_y
      = b.position_y + (b.velocity_y + b.force_y / b.mass * dt) * dt ∧
    (b.update_position dt).momentum_x
      = (b.update_position dt).mass * (b.update_position dt).velocity_x ∧
    (b.update_position dt).momentum_y
      = (b.update_position dt).mass * (b.update_position dt).velocity_y ∧
    (b.update_position dt).force_x = 0 ∧ (b.update_position dt).force_y = 0 ∧
    (b.update_position dt).mass = b.mass := by
  refine ⟨rfl, rfl, rfl, rfl, rfl, rfl, ?_, ?_, rfl⟩ <;>
    · show (0.0 : ℝ) = 0
      norm_num

/-- Witness for C5 at a concrete body of mass 2 and timestep 1. -/
theorem C5_update_position_semi_implicit_witness :
    (0 < (mkBody 2 0 0 3 0 1).mass ∧ (0 : ℝ) < 1) ∧
    ((mkBody 2 0 0 3 0 1).update_position 1).velocity_x
      = (mkBody 2 0 0 3 0 1).velocity_x
        + (mkBody 2 0 0 3 0 1).force_x / (mkBody 2 0 0 3 0 1).mass * 1 :=
  ⟨⟨by norm_num [mkBody], by norm_num⟩,
    (C5_update_position_semi_implicit (mkBody 2 0 0 3 0 1) 1
      (by norm_num [mkBody]) (by norm_num)).1⟩

/-- C7: the surviving body's momentum is the componentwise sum of the two
pre-merge momenta, and its velocity is that sum divided by the combined
mass `m1 + m2`; at the spec's scenario (A: mass 10, velocity `(2,0)`;
B: mass 30, at rest) the merged velocity is `0.5` along x. -/
theorem C7_combine_momentum (a b : Body) :
    (Body.combine a b).momentum_x = a.momentum_x + b.momentum_x ∧
    (Body.combine a b).momentum_y = a.momentum_y + b.momentum_y ∧
    (Body.combine a b).velocity_x = (a.momentum_x + b.momentum_x) / (a.mass + b.mass) ∧
    (Body.combine a b).velocity_y = (a.momentum_y + b.momentum_y) / (a.mass + b.mass) ∧
    (Body.combine A1 B1).velocity_x = 1 / 2 ∧
    (Body.combine A1 B1).velocity_y = 0 := by
  refine ⟨rfl, rfl, rfl, rfl, ?_, ?_⟩
  · show (A1.momentum_x + B1.momentum_x) / (A1.mass + B1.mass) = 1 / 2
    norm_num [A1, B1, mkBody]
  · show (A1.momentum_y + B1.momentum_y) / (A1.mass + B1.mass) = 0
    norm_num [A1, B1, mkBody]

/-- C9: the claim says construction rejects `mass ≤ 0` as a fatal
precondition violation.  `Body.__init__` performs no validation at all: a
body constructed with `mass = -1` is accepted and stores that mass (and
proceeds with velocity 0 like any other body). -/
theorem C9_init_accepts_nonpositive_mass :
    (Body.init "X" (-1) 0 0 0 0 [255, 255, 255]).mass = -1 ∧
    (Body.init "X" (-1) 0 0 0 0 [255, 255, 255]).velocity_x = 0 ∧
    (Body.init "X" (-1) 0 0 0 0 [255, 255, 255]).position_x = 0 :=
  ⟨rfl, rfl, rfl⟩

/-! ### List helper lemmas -/

lemma getD_set_self (l : List Body) (i : ℕ) (a : Body) (h : i < l.length) :
    (l.set i a).getD i default = a := by
  simp [List.getD_eq_getElem?_getD, List.getElem?_set_self h]

lemma getD_set_ne (l : List Body) (i j : ℕ) (a : Body) (h : i ≠ j) :
    (l.set i a).getD j default = l.getD j default := by
  simp [List.getD_eq_getElem?_getD, List.getElem?_set_ne h]

lemma getD_of_length_le (l : List Body) (i : ℕ) (h : l.length ≤ i) :
    l.getD i default = default := by
  simp [List.getD_eq_getElem?_getD, List.getElem?_eq_none h]

lemma getD_eq_getElem (l : List Body) (i : ℕ) (h : i < l.length) :
    l.getD i default = l[i] := by
  simp [List.getD_eq_getElem?_getD, List.getElem?_eq_getElem h]

lemma sum_map_set (f : Body → ℝ) :
    ∀ (l : List Body) (i : ℕ) (a : Body), i < l.length →
      ((l.set i a).map f).sum = (l.map f).sum - f (l.getD i default) + f a
  | [], i, a, h => by simp at h
  | b :: t, 0, a, _h => by
    simp only [List.set_cons_zero, List.map_cons, List.sum_cons, List.getD_cons_zero]
    ring
  | b :: t, i + 1, a, h => by
    have ih := sum_map_set f t i a (by simpa using h)
    simp only [List.set_cons_succ, List.map_cons, List.sum_cons, List.getD_cons_succ, ih]
    ring

lemma sum_map_eraseIdx (f : Body → ℝ) :
    ∀ (l : List Body) (j : ℕ), j < l.length →
      ((l.eraseIdx j).map f).sum = (l.map f).sum - f (l.getD j default)
  | [], j, h => by simp at h
  | b :: t, 0, _h => by
    simp only [List.eraseIdx_cons_zero, List.map_cons, List.sum_cons, List.getD_cons_zero]
    ring
  | b :: t, j + 1, h => by
    have ih := sum_map_eraseIdx f t j (by simpa using h)
    simp only [List.eraseIdx_cons_succ, List.map_cons, List.sum_cons, List.getD_cons_succ, ih]
    ring

/-- Case split on the two branches of `_update_force`, exposing only the
branch facts that do not need the trigonometric rewriting. -/
lemma _update_force_cases (a b : Body) :
    (Body._update_force a b = (Body.combine a b, true)
        ∧ Body.dist a b ≤ a.radius + b.radius)
    ∨ ((Body._update_force a b).2 = false ∧
       (Body._update_force a b).1.mass = a.mass ∧
       (Body._update_force a b).1.trail = a.trail ∧
       ¬ Body.dist a b ≤ a.radius + b.radius) := by
  by_cases hc : Body.dist a b ≤ a.radius + b.radius
  · exact Or.inl ⟨_update_force_near a b hc, hc⟩
  · right
    refine ⟨?_, ?_, ?_, hc⟩ <;>
      · unfold Body._update_force
        dsimp only
        rw [show Real.sqrt ((a.position_x - b.position_x) ^ 2
              + (a.position_y - b.position_y) ^ 2) = Body.dist a b from rfl]
        rw [if_neg hc]

/-- Equation for `update_force_step` in the merge branch. -/
lemma update_force_step_of_merge (bodies : List Body) (i j : ℕ)
    (h : Body._update_force (bodies.getD i default) (bodies.getD j default)
        = (Body.combine (bodies.getD i default) (bodies.getD j default), true)) :
    Body.update_force_step bodies i j
      = ((bodies.set i (Body.combine (bodies.getD i default) (bodies.getD j default))).eraseIdx j,
         if j < i then i - 1 else i) := by
  unfold Body.update_force_step
  dsimp only
  rw [h]
  simp

/-- Equation for `update_force_step` in the no-merge branch. -/
lemma update_force_step_of_far (bodies : List Body) (i j : ℕ)
    (h : (Body._update_force (bodies.getD i default) (bodies.getD j default)).2 = false) :
    Body.update_force_step bodies i j
      = (bodies.set i (Body._update_force (bodies.getD i default) (bodies.getD j default)).1,
         i) := by
  unfold Body.update_force_step
  dsimp only
  rw [h]
  simp

/-- The total mass is unchanged by the `update_force` inner loop: the merge
branch replaces masses `m_i`, `m_j` by the single mass `m_i + m_j`, the
force branch does not touch masses. -/
lemma update_force_loop_totalMass :
    ∀ (fuel : ℕ) (bodies : List Body) (i j : ℕ), i < bodies.length →
      totalMass (Body.update_force_loop fuel bodies i j).1 = totalMass bodies
  | 0, _, _, _, _ => rfl
  | fuel + 1, bodies, i, j, hi => by
    simp only [Body.update_force_loop]
    by_cases hj : j < bodies.length
    · rw [if_pos hj]
      by_cases hij : i = j
      · rw [if_pos hij]
        exact update_force_loop_totalMass fuel bodies i (j + 1) hi
      · rw [if_neg hij]
        rcases _update_force_cases (bodies.getD i default) (bodies.getD j default) with
          ⟨heq, _⟩ | ⟨hfalse, hmass, _, _⟩
        · rw [update_force_step_of_merge bodies i j heq]
          have hjlen : j < (bodies.set i
              (Body.combine (bodies.getD i default) (bodies.getD j default))).length := by
            simpa using hj
          have h1 : totalMass ((bodies.set i
              (Body.combine (bodies.getD i default) (bodies.getD j default))).eraseIdx j)
              = totalMass bodies := by
            unfold totalMass
            rw [sum_map_eraseIdx Body.mass _ j hjlen,
              getD_set_ne bodies i j _ hij,
              sum_map_set Body.mass bodies i _ hi, combine_mass]
            ring
          have hlen : ((bodies.set i
              (Body.combine (bodies.getD i default) (bodies.getD j default))).eraseIdx j).length
              = bodies.length - 1 := by
            rw [List.length_eraseIdx_of_lt hjlen, List.length_set]
          have hi' : (if j < i then i - 1 else i) < ((bodies.set i
              (Body.combine (bodies.getD i default) (bodies.getD j default))).eraseIdx j).length := by
            rw [hlen]
            split <;> omega
          rw [← h1]
          exact update_force_loop_totalMass fuel _ _ (j + 1) hi'
        · rw [update_force_step_of_far bodies i j hfalse]
          have h1 : totalMass (bodies.set i
              (Body._update_force (bodies.getD i default) (bodies.getD j default)).1)
              = totalMass bodies := by
            unfold totalMass
            rw [sum_map_set Body.mass bodies i _ hi, hmass]
            ring
          have hi' : i < (bodies.set i
              (Body._update_force (bodies.getD i default) (bodies.getD j default)).1).length := by
            simpa using hi
          rw [← h1]
          exact update_force_loop_totalMass fuel _ _ (j + 1) hi'
    · rw [if_neg hj]

/-- The total mass is unchanged by the whole force pass. -/
lemma update_force_pass_totalMass :
    ∀ (fuel : ℕ) (bodies : List Body) (i : ℕ),
      totalMass (update_force_pass fuel bodies i) = totalMass bodies
  | 0, _, _ => rfl
  | fuel + 1, bodies, i => by
    simp only [update_force_pass]
    by_cases hi : i < bodies.length
    · rw [if_pos hi, update_force_pass_totalMass fuel _ (i + 1)]
      exact update_force_loop_totalMass bodies.length bodies i 0 hi
    · rw [if_neg hi]

lemma update_position_mass (b : Body) (dt : ℝ) : (b.update_position dt).mass = b.mass := rfl

lemma update_trail_mass (b : Body) (fr : ℕ) : (b.update_trail fr).mass = b.mass := by
  unfold Body.update_trail
  dsimp only
  split <;> rfl

/-- The total mass is unchanged by one full tick. -/
lemma totalMass_tick (bodies : List Body) (dt : ℝ) (fr : ℕ) :
    totalMass (tick bodies dt fr) = totalMass bodies := by
  unfold tick
  have h1 : totalMass ((forcePhase bodies).map fun b => (b.update_position dt).update_trail fr)
      = totalMass (forcePhase bodies) := by
    unfold totalMass
    rw [List.map_map]
    apply congrArg
    apply List.map_congr_left
    intro a _
    show ((a.update_position dt).update_trail fr).mass = a.mass
    rw [update_trail_mass, update_position_mass]
  rw [h1]
  unfold forcePhase
  exact update_force_pass_totalMass bodies.length bodies 0

/-- C3: merging adds the two pre-merge masses exactly, and since the
absorbed body leaves the list in the same step, the total mass of the
body set is invariant under any number of ticks — no hypotheses needed. -/
theorem C3_mass_conserved (a b : Body) (bodies : List Body) (dt : ℝ) (fr N : ℕ) :
    (Body.combine a b).mass = a.mass + b.mass ∧
    totalMass (tickN bodies dt fr N) = totalMass bodies := by
  refine ⟨combine_mass a b, ?_⟩
  induction N with
  | zero => rfl
  | succ n ih =>
    show totalMass (tick (tickN bodies dt fr n) dt fr) = totalMass bodies
    rw [totalMass_tick, ih]

/-! ### Step-equation lemmas for evaluating the loops -/

lemma update_force_loop_done (fuel : ℕ) (bodies : List Body) (i j : ℕ)
    (h : bodies.length ≤ j) :
    Body.update_force_loop fuel bodies i j = (bodies, i) := by
  cases fuel with
  | zero => rfl
  | succ fuel =>
    simp only [Body.update_force_loop]
    rw [if_neg (not_lt.mpr h)]

lemma update_force_loop_skip (fuel : ℕ) (bodies : List Body) (i j : ℕ)
    (hj : j < bodies.length) (hij : i = j) :
    Body.update_force_loop (fuel + 1) bodies i j
      = Body.update_force_loop fuel bodies i (j + 1) := by
  simp only [Body.update_force_loop]
  rw [if_pos hj, if_pos hij]

lemma update_force_loop_step (fuel : ℕ) (bodies : List Body) (i j : ℕ)
    (hj : j < bodies.length) (hij : i ≠ j) :
    Body.update_force_loop (fuel + 1) bodies i j
      = Body.update_force_loop fuel (Body.update_force_step bodies i j).1
          (Body.update_force_step bodies i j).2 (j + 1) := by
  simp only [Body.update_force_loop]
  rw [if_pos hj, if_neg hij]

lemma update_force_pass_step (fuel : ℕ) (bodies : List Body) (i : ℕ)
    (hi : i < bodies.length) :
    update_force_pass (fuel + 1) bodies i
      = update_force_pass fuel (Body.update_force bodies i).1 (i + 1) := by
  simp only [update_force_pass]
  rw [if_pos hi]

lemma update_force_pass_done (fuel : ℕ) (bodies : List Body) (i : ℕ)
    (hi : bodies.length ≤ i) :
    update_force_pass fuel bodies i = bodies := by
  cases fuel with
  | zero => rfl
  | succ fuel =>
    simp only [update_force_pass]
    rw [if_neg (not_lt.mpr hi)]

/-- `update_force_step` in the non-overlap case, with the trigonometry
already rewritten into `fAddX`/`fAddY`. -/
lemma update_force_step_far (bodies : List Body) (i j : ℕ)
    (h : (bodies.getD i default).radius + (bodies.getD j default).radius
        < Body.dist (bodies.getD i default) (bodies.getD j default))
    (h0 : 0 ≤ (bodies.getD i default).radius + (bodies.getD j default).radius) :
    Body.update_force_step bodies i j
      = (bodies.set i
          { bodies.getD i default with
            force_x := (bodies.getD i default).force_x
              + fAddX (bodies.getD i default) (bodies.getD j default)
            force_y := (bodies.getD i default).force_y
              + fAddY (bodies.getD i default) (bodies.getD j default) }, i) := by
  have hfar := _update_force_far _ _ h h0
  rw [update_force_step_of_far bodies i j (by rw [hfar])]
  rw [hfar]

/-- `update_force_step` in the overlap case. -/
lemma update_force_step_merge (bodies : List Body) (i j : ℕ)
    (h : Body.dist (bodies.getD i default) (bodies.getD j default)
        ≤ (bodies.getD i default).radius + (bodies.getD j default).radius) :
    Body.update_force_step bodies i j
      = ((bodies.set i (Body.combine (bodies.getD i default) (bodies.getD j default))).eraseIdx j,
         if j < i then i - 1 else i) :=
  update_force_step_of_merge bodies i j (_update_force_near _ _ h)

lemma sqrt_eval (x v : ℝ) (hv : 0 ≤ v) (h : x = v ^ 2) : Real.sqrt x = v := by
  rw [h]
  exact Real.sqrt_sq hv

lemma combine_velocity_x (a b : Body) :
    (Body.combine a b).velocity_x = (a.momentum_x + b.momentum_x) / (a.mass + b.mass) := rfl

lemma combine_velocity_y (a b : Body) :
    (Body.combine a b).velocity_y = (a.momentum_y + b.momentum_y) / (a.mass + b.mass) := rfl

lemma update_position_velocity_x (b : Body) (dt : ℝ) :
    (b.update_position dt).velocity_x = b.velocity_x + b.force_x / b.mass * dt := rfl

lemma update_position_velocity_y (b : Body) (dt : ℝ) :
    (b.update_position dt).velocity_y = b.velocity_y + b.force_y / b.mass * dt := rfl

lemma update_trail_velocity_x (b : Body) (fr : ℕ) :
    (b.update_trail fr).velocity_x = b.velocity_x := by
  unfold Body.update_trail
  dsimp only
  split <;> rfl

lemma update_trail_velocity_y (b : Body) (fr : ℕ) :
    (b.update_trail fr).velocity_y = b.velocity_y := by
  unfold Body.update_trail
  dsimp only
  split <;> rfl

/-! ### Concrete three-body configuration on which a mid-pass merge leaks
momentum: `CA` and `CB` overlap (distance 1, radii 1 + 1); `CX` is far away
at distance 100 from `CA`.  All bodies rest with zero accumulated force. -/

/-- Distant spectator body of the merge counterexample. -/
def CX : Body := mkBody 10 100 0 0 0 1

/-- First member of the overlapping pair. -/
def CA : Body := mkBody 10 0 0 0 0 1

/-- Second member of the overlapping pair. -/
def CB : Body := mkBody 10 1 0 0 0 1

lemma dist_CA_CB : Body.dist CA CB = 1 := by
  unfold Body.dist
  apply sqrt_eval _ 1 (by norm_num)
  norm_num [CA, CB, mkBody]

lemma forcePhase_CACB : forcePhase [CA, CB] = [Body.combine CA CB] := by
  unfold forcePhase
  show update_force_pass 2 [CA, CB] 0 = _
  rw [update_force_pass_step 1 [CA, CB] 0 (by norm_num)]
  have hloop : Body.update_force [CA, CB] 0 = ([Body.combine CA CB], 0) := by
    unfold Body.update_force
    show Body.update_force_loop 2 [CA, CB] 0 0 = _
    rw [update_force_loop_skip 1 [CA, CB] 0 0 (by norm_num) rfl]
    rw [update_force_loop_step 0 [CA, CB] 0 1 (by norm_num) (by norm_num)]
    have hstep : Body.update_force_step [CA, CB] 0 1 = ([Body.combine CA CB], 0) := by
      rw [update_force_step_merge [CA, CB] 0 1
        (by
          simp only [List.getD_cons_zero, List.getD_cons_succ]
          rw [dist_CA_CB]
          norm_num [CA, CB, mkBody])]
      simp
    rw [hstep]
    rfl
  rw [hloop]
  exact update_force_pass_done 1 [Body.combine CA CB] 1 (by norm_num)

/-- C6: the claim says positions, radii and masses are unchanged during the
force-computation phase and that merges mutate the set only between the
phases.  In the code the merge happens inside the force pass itself: on the
overlapping pair `CA`, `CB`, the force phase alone already shrinks the list
and changes the first body's mass. -/
theorem C6_set_mutated_during_force_phase :
    (forcePhase [CA, CB]).length ≠ ([CA, CB] : List Body).length ∧
    ((forcePhase [CA, CB]).getD 0 default).mass
      ≠ (([CA, CB] : List Body).getD 0 default).mass := by
  rw [forcePhase_CACB]
  constructor
  · norm_num
  · simp only [List.getD_cons_zero, combine_mass]
    norm_num [CA, CB, mkBody]

/-! ### Evaluation of one full tick on `[CX, CA, CB]` -/

/-- `CX` after receiving the force from `CA`. -/
def CX1 : Body := { CX with force_x := -(1 / 100), force_y := 0 }

/-- `CX` after receiving the forces from `CA` and `CB`. -/
def CX2 : Body := { CX with force_x := -(1 / 100) + -(100 / 9801), force_y := 0 }

/-- `CA` after receiving the force from `CX`. -/
def CA1 : Body := { CA with force_x := 1 / 100, force_y := 0 }

lemma dist_CX_CA : Body.dist CX CA = 100 := by
  unfold Body.dist
  apply sqrt_eval _ 100 (by norm_num)
  norm_num [CX, CA, mkBody]

lemma dist_CX1_CB : Body.dist CX1 CB = 99 := by
  unfold Body.dist
  apply sqrt_eval _ 99 (by norm_num)
  norm_num [CX1, CX, CB, mkBody]

lemma dist_CA_CX2 : Body.dist CA CX2 = 100 := by
  unfold Body.dist
  apply sqrt_eval _ 100 (by norm_num)
  norm_num [CX2, CX, CA, mkBody]

lemma dist_CA1_CB : Body.dist CA1 CB = 1 := by
  unfold Body.dist
  apply sqrt_eval _ 1 (by norm_num)
  norm_num [CA1, CA, CB, mkBody]

lemma fAddX_CX_CA : fAddX CX CA = -(1 / 100) := by
  unfold fAddX
  rw [dist_CX_CA]
  norm_num [Body.G, CX, CA, mkBody]

lemma fAddY_CX_CA : fAddY CX CA = 0 := by
  unfold fAddY
  rw [dist_CX_CA]
  norm_num [CX, CA, mkBody]

lemma fAddX_CX1_CB : fAddX CX1 CB = -(100 / 9801) := by
  unfold fAddX
  rw [dist_CX1_CB]
  norm_num [Body.G, CX1, CX, CB, mkBody]

lemma fAddY_CX1_CB : fAddY CX1 CB = 0 := by
  unfold fAddY
  rw [dist_CX1_CB]
  norm_num [CX1, CX, CB, mkBody]

lemma fAddX_CA_CX2 : fAddX CA CX2 = 1 / 100 := by
  unfold fAddX
  rw [dist_CA_CX2]
  norm_num [Body.G, CX2, CX, CA, mkBody]

lemma fAddY_CA_CX2 : fAddY CA CX2 = 0 := by
  unfold fAddY
  rw [dist_CA_CX2]
  norm_num [CX2, CX, CA, mkBody]

lemma step_CX_CA : Body.update_force_step [CX, CA, CB] 0 1 = ([CX1, CA, CB], 0) := by
  rw [update_force_step_far [CX, CA, CB] 0 1
    (by
      simp only [List.getD_cons_zero, List.getD_cons_succ]
      rw [dist_CX_CA]
      norm_num [CX, CA, mkBody])
    (by
      simp only [List.getD_cons_zero, List.getD_cons_succ]
      norm_num [CX, CA, mkBody])]
  simp only [List.getD_cons_zero, List.getD_cons_succ, List.set_cons_zero,
    fAddX_CX_CA, fAddY_CX_CA]
  norm_num [CX1, CX, mkBody]

lemma step_CX1_CB : Body.update_force_step [CX1, CA, CB] 0 2 = ([CX2, CA, CB], 0) := by
  rw [update_force_step_far [CX1, CA, CB] 0 2
    (by
      simp only [List.getD_cons_zero, List.getD_cons_succ]
      rw [dist_CX1_CB]
      norm_num [CX1, CX, CB, mkBody])
    (by
      simp only [List.getD_cons_zero, List.getD_cons_succ]
      norm_num [CX1, CX, CB, mkBody])]
  simp only [List.getD_cons_zero, List.getD_cons_succ, List.set_cons_zero,
    fAddX_CX1_CB, fAddY_CX1_CB]
  norm_num [CX2, CX1, CX, mkBody]

lemma step_CA_CX2 : Body.update_force_step [CX2, CA, CB] 1 0 = ([CX2, CA1, CB], 1) := by
  rw [update_force_step_far [CX2, CA, CB] 1 0
    (by
      simp only [List.getD_cons_zero, List.getD_cons_succ]
      rw [dist_CA_CX2]
      norm_num [CX2, CX, CA, mkBody])
    (by
      simp only [List.getD_cons_zero, List.getD_cons_succ]
      norm_num [CX2, CX, CA, mkBody])]
  simp only [List.getD_cons_zero, List.getD_cons_succ, List.set_cons_succ,
    List.set_cons_zero, fAddX_CA_CX2, fAddY_CA_CX2]
  norm_num [CA1, CA, mkBody]

lemma step_CA1_CB :
    Body.update_force_step [CX2, CA1, CB] 1 2 = ([CX2, Body.combine CA1 CB], 1) := by
  rw [update_force_step_merge [CX2, CA1, CB] 1 2
    (by
      simp only [List.getD_cons_zero, List.getD_cons_succ]
      rw [dist_CA1_CB]
      norm_num [CA1, CA, CB, mkBody])]
  simp only [List.getD_cons_zero, List.getD_cons_succ, List.set_cons_succ,
    List.set_cons_zero]
  simp

lemma update_force_CXCACB : Body.update_force [CX, CA, CB] 0 = ([CX2, CA, CB], 0) := by
  unfold Body.update_force
  show Body.update_force_loop 3 [CX, CA, CB] 0 0 = _
  rw [update_force_loop_skip 2 [CX, CA, CB] 0 0 (by norm_num) rfl]
  rw [update_force_loop_step 1 [CX, CA, CB] 0 1 (by norm_num) (by norm_num)]
  rw [step_CX_CA]
  show Body.update_force_loop 1 [CX1, CA, CB] 0 2 = _
  rw [update_force_loop_step 0 [CX1, CA, CB] 0 2 (by norm_num) (by norm_num)]
  rw [step_CX1_CB]
  rfl

lemma update_force_CX2CACB :
    Body.update_force [CX2, CA, CB] 1 = ([CX2, Body.combine CA1 CB], 1) := by
  unfold Body.update_force
  show Body.update_force_loop 3 [CX2, CA, CB] 1 0 = _
  rw [update_force_loop_step 2 [CX2, CA, CB] 1 0 (by norm_num) (by norm_num)]
  rw [step_CA_CX2]
  show Body.update_force_loop 2 [CX2, CA1, CB] 1 1 = _
  rw [update_force_loop_skip 1 [CX2, CA1, CB] 1 1 (by norm_num) rfl]
  rw [update_force_loop_step 0 [CX2, CA1, CB] 1 2 (by norm_num) (by norm_num)]
  rw [step_CA1_CB]
  rfl

lemma forcePhase_CXCACB : forcePhase [CX, CA, CB] = [CX2, Body.combine CA1 CB] := by
  unfold forcePhase
  show update_force_pass 3 [CX, CA, CB] 0 = _
  rw [update_force_pass_step 2 [CX, CA, CB] 0 (by norm_num)]
  rw [update_force_CXCACB]
  show update_force_pass 2 [CX2, CA, CB] 1 = _
  rw [update_force_pass_step 1 [CX2, CA, CB] 1 (by norm_num)]
  rw [update_force_CX2CACB]
  exact update_force_pass_done 1 [CX2, Body.combine CA1 CB] 2 (by norm_num)

/-! ### Closed form of the force phase when no pair overlaps -/

/-- No two distinct bodies of the list overlap (the source merges on
`d ≤ r1 + r2`, so separation is the strict reverse inequality). -/
def separated (bodies : List Body) : Prop :=
  ∀ i j, i < bodies.length → j < bodies.length → i ≠ j →
    (bodies.getD i default).radius + (bodies.getD j default).radius
      < Body.dist (bodies.getD i default) (bodies.getD j default)

/-- All radii of the list are nonnegative. -/
def radiiNonneg (bodies : List Body) : Prop := ∀ b ∈ bodies, 0 ≤ b.radius

/-- Sum of the x force increments body `i` receives from the bodies at
indices `j, j+1, …` (skipping itself). -/
def sumFx (bodies : List Body) (i j : ℕ) : ℝ :=
  ∑ k ∈ (Finset.Ico j bodies.length).erase i,
    fAddX (bodies.getD i default) (bodies.getD k default)

/-- Sum of the y force increments body `i` receives from the bodies at
indices `j, j+1, …` (skipping itself). -/
def sumFy (bodies : List Body) (i j : ℕ) : ℝ :=
  ∑ k ∈ (Finset.Ico j bodies.length).erase i,
    fAddY (bodies.getD i default) (bodies.getD k default)

lemma radiiNonneg_getD (bodies : List Body) (k : ℕ) (h : radiiNonneg bodies) :
    0 ≤ (bodies.getD k default).radius := by
  by_cases hk : k < bodies.length
  · rw [getD_eq_getElem _ _ hk]
    exact h _ (List.getElem_mem hk)
  · rw [getD_of_length_le _ _ (by omega)]
    simp [default]

lemma set_getD_eq_self (l : List Body) (i : ℕ) (h : i < l.length) :
    l.set i (l.getD i default) = l := by
  apply List.ext_getElem (by simp)
  intro n h1 h2
  by_cases hn : i = n
  · subst hn
    rw [List.getElem_set_self, getD_eq_getElem l i h]
  · rw [List.getElem_set_ne hn]

lemma sumFx_empty (bodies : List Body) (i j : ℕ) (h : bodies.length ≤ j) :
    sumFx bodies i j = 0 := by
  unfold sumFx
  rw [Finset.Ico_eq_empty (by omega), Finset.erase_empty, Finset.sum_empty]

lemma sumFy_empty (bodies : List Body) (i j : ℕ) (h : bodies.length ≤ j) :
    sumFy bodies i j = 0 := by
  unfold sumFy
  rw [Finset.Ico_eq_empty (by omega), Finset.erase_empty, Finset.sum_empty]

lemma sumFx_skip (bodies : List Body) (j : ℕ) (hj : j < bodies.length) :
    sumFx bodies j j = sumFx bodies j (j + 1) := by
  have hnot : j ∉ Finset.Ico (j + 1) bodies.length := by
    simp [Finset.mem_Ico]
  unfold sumFx
  rw [← Nat.Ico_insert_succ_left hj]
  simp only [Nat.succ_eq_add_one]
  rw [Finset.erase_insert hnot, Finset.erase_eq_of_not_mem hnot]

lemma sumFy_skip (bodies : List Body) (j : ℕ) (hj : j < bodies.length) :
    sumFy bodies j j = sumFy bodies j (j + 1) := by
  have hnot : j ∉ Finset.Ico (j + 1) bodies.length := by
    simp [Finset.mem_Ico]
  unfold sumFy
  rw [← Nat.Ico_insert_succ_left hj]
  simp only [Nat.succ_eq_add_one]
  rw [Finset.erase_insert hnot, Finset.erase_eq_of_not_mem hnot]

lemma sumFx_peel (bodies : List Body) (i j : ℕ) (hj : j < bodies.length) (hij : i ≠ j) :
    sumFx bodies i j
      = fAddX (bodies.getD i default) (bodies.getD j default) + sumFx bodies i (j + 1) := by
  have hnot : j ∉ (Finset.Ico (j + 1) bodies.length).erase i := by
    simp [Finset.mem_erase, Finset.mem_Ico]
  unfold sumFx
  rw [← Nat.Ico_insert_succ_left hj]
  simp only [Nat.succ_eq_add_one]
  rw [Finset.erase_insert_of_ne (fun h => hij h.symm), Finset.sum_insert hnot]

lemma sumFy_peel (bodies : List Body) (i j : ℕ) (hj : j < bodies.length) (hij : i ≠ j) :
    sumFy bodies i j
      = fAddY (bodies.getD i default) (bodies.getD j default) + sumFy bodies i (j + 1) := by
  have hnot : j ∉ (Finset.Ico (j + 1) bodies.length).erase i := by
    simp [Finset.mem_erase, Finset.mem_Ico]
  unfold sumFy
  rw [← Nat.Ico_insert_succ_left hj]
  simp only [Nat.succ_eq_add_one]
  rw [Finset.erase_insert_of_ne (fun h => hij h.symm), Finset.sum_insert hnot]

/-- Setting a body's force accumulator does not change any quantity the
geometry reads, so separation is preserved. -/
lemma separated_set_forceUpd (bodies : List Body) (i : ℕ) (p q : ℝ)
    (hi : i < bodies.length) (hsep : separated bodies) :
    separated (bodies.set i
      { bodies.getD i default with force_x := p, force_y := q }) := by
  intro a b ha hb hab
  rw [List.length_set] at ha hb
  by_cases hai : a = i
  · subst hai
    rw [getD_set_self _ _ _ hi, getD_set_ne _ _ _ _ (fun h => hab h)]
    show (bodies.getD a default).radius + (bodies.getD b default).radius
        < Body.dist (bodies.getD a default) (bodies.getD b default)
    exact hsep a b ha hb hab
  · by_cases hbi : b = i
    · subst hbi
      rw [getD_set_self _ _ _ hi, getD_set_ne _ _ _ _ (fun h => hai h.symm)]
      show (bodies.getD a default).radius + (bodies.getD b default).radius
          < Body.dist (bodies.getD a default) (bodies.getD b default)
      exact hsep a b ha hb hab
    · rw [getD_set_ne _ _ _ _ (fun h => hai h.symm),
        getD_set_ne _ _ _ _ (fun h => hbi h.symm)]
      exact hsep a b ha hb hab

lemma radiiNonneg_set_forceUpd (bodies : List Body) (i : ℕ) (p q : ℝ)
    (hrad : radiiNonneg bodies) :
    radiiNonneg (bodies.set i
      { bodies.getD i default with force_x := p, force_y := q }) := by
  intro b hb
  rcases List.mem_or_eq_of_mem_set hb with hmem | hbe
  · exact hrad b hmem
  · rw [hbe]
    show 0 ≤ (bodies.getD i default).radius
    exact radiiNonneg_getD bodies i hrad

lemma sumFx_set_forceUpd (bodies : List Body) (j : ℕ) (i : ℕ) (p q : ℝ)
    (hi : i < bodies.length) :
    sumFx (bodies.set i { bodies.getD i default with force_x := p, force_y := q }) i j
      = sumFx bodies i j := by
  unfold sumFx
  rw [List.length_set]
  apply Finset.sum_congr rfl
  intro k hk
  have hki : k ≠ i := (Finset.mem_erase.mp hk).1
  rw [getD_set_self _ _ _ hi, getD_set_ne _ _ _ _ (fun h => hki h.symm)]
  rfl

lemma sumFy_set_forceUpd (bodies : List Body) (j : ℕ) (i : ℕ) (p q : ℝ)
    (hi : i < bodies.length) :
    sumFy (bodies.set i { bodies.getD i default with force_x := p, force_y := q }) i j
      = sumFy bodies i j := by
  unfold sumFy
  rw [List.length_set]
  apply Finset.sum_congr rfl
  intro k hk
  have hki : k ≠ i := (Finset.mem_erase.mp hk).1
  rw [getD_set_self _ _ _ hi, getD_set_ne _ _ _ _ (fun h => hki h.symm)]
  rfl

lemma sumFx_set_forceUpd_ne (bodies : List Body) (j : ℕ) (i k : ℕ) (p q : ℝ)
    (hi : i < bodies.length) (hk : k ≠ i) :
    sumFx (bodies.set i { bodies.getD i default with force_x := p, force_y := q }) k j
      = sumFx bodies k j := by
  unfold sumFx
  rw [List.length_set]
  apply Finset.sum_congr rfl
  intro m hm
  rw [getD_set_ne _ _ _ _ (fun h => hk h.symm)]
  by_cases hmi : m = i
  · subst hmi
    rw [getD_set_self _ _ _ hi]
    rfl
  · rw [getD_set_ne _ _ _ _ (fun h => hmi h.symm)]

lemma sumFy_set_forceUpd_ne (bodies : List Body) (j : ℕ) (i k : ℕ) (p q : ℝ)
    (hi : i < bodies.length) (hk : k ≠ i) :
    sumFy (bodies.set i { bodies.getD i default with force_x := p, force_y := q }) k j
      = sumFy bodies k j := by
  unfold sumFy
  rw [List.length_set]
  apply Finset.sum_congr rfl
  intro m hm
  rw [getD_set_ne _ _ _ _ (fun h => hk h.symm)]
  by_cases hmi : m = i
  · subst hmi
    rw [getD_set_self _ _ _ hi]
    rfl
  · rw [getD_set_ne _ _ _ _ (fun h => hmi h.symm)]

/-- Closed form of the `update_force` inner loop when no pair of the list
overlaps: only `self`'s force accumulator changes, receiving the sum of the
pair increments over the remaining cursor positions; the list shape, every
other body, and the index of `self` are untouched. -/
lemma update_force_loop_separated :
    ∀ (fuel : ℕ) (bodies : List Body) (i j : ℕ),
      bodies.length ≤ fuel + j → i < bodies.length →
      separated bodies → radiiNonneg bodies →
      Body.update_force_loop fuel bodies i j
        = (bodies.set i
            { bodies.getD i default with
              force_x := (bodies.getD i default).force_x + sumFx bodies i j
              force_y := (bodies.getD i default).force_y + sumFy bodies i j }, i)
  | 0, bodies, i, j, hfuel, hi, _, _ => by
    show (bodies, i) = _
    rw [sumFx_empty bodies i j (by omega), sumFy_empty bodies i j (by omega),
      add_zero, add_zero, eta_force, set_getD_eq_self bodies i hi]
  | fuel + 1, bodies, i, j, hfuel, hi, hsep, hrad => by
    by_cases hj : j < bodies.length
    · by_cases hij : i = j
      · subst hij
        rw [update_force_loop_skip fuel bodies i i hj rfl]
        rw [update_force_loop_separated fuel bodies i (i + 1) (by omega) hi hsep hrad]
        rw [sumFx_skip bodies i hj, sumFy_skip bodies i hj]
      · have hfar := hsep i j hi hj hij
        have h0 : 0 ≤ (bodies.getD i default).radius + (bodies.getD j default).radius :=
          add_nonneg (radiiNonneg_getD bodies i hrad) (radiiNonneg_getD bodies j hrad)
        rw [update_force_loop_step fuel bodies i j hj hij,
          update_force_step_far bodies i j hfar h0]
        show Body.update_force_loop fuel
            (bodies.set i
              { bodies.getD i default with
                force_x := (bodies.getD i default).force_x
                  + fAddX (bodies.getD i default) (bodies.getD j default)
                force_y := (bodies.getD i default).force_y
                  + fAddY (bodies.getD i default) (bodies.getD j default) }) i (j + 1) = _
        rw [update_force_loop_separated fuel _ i (j + 1)
          (by rw [List.length_set]; omega)
          (by rw [List.length_set]; exact hi)
          (separated_set_forceUpd bodies i _ _ hi hsep)
          (radiiNonneg_set_forceUpd bodies i _ _ hrad)]
        rw [getD_set_self _ _ _ hi]
        rw [sumFx_set_forceUpd bodies (j + 1) i _ _ hi,
          sumFy_set_forceUpd bodies (j + 1) i _ _ hi]
        rw [List.set_set]
        rw [sumFx_peel bodies i j hj hij, sumFy_peel bodies i j hj hij]
        refine congrArg (fun w => (bodies.set i w, i)) ?_
        dsimp only
        simp only [Body.mk.injEq, true_and, and_true]
        refine ⟨?_, ?_⟩ <;> ring
    · rw [update_force_loop_done (fuel + 1) bodies i j (by omega),
        sumFx_empty bodies i j (by omega), sumFy_empty bodies i j (by omega),
        add_zero, add_zero, eta_force, set_getD_eq_self bodies i hi]

/-- The body list after the force pass has run from outer index `i` on a
separated list: bodies at index `k ≥ i` have accumulated the force
increments from every other body, bodies below `i` are untouched. -/
def postForce (bodies : List Body) (i : ℕ) : List Body :=
  (List.range bodies.length).map fun k =>
    if i ≤ k then
      { bodies.getD k default with
        force_x := (bodies.getD k default).force_x + sumFx bodies k 0
        force_y := (bodies.getD k default).force_y + sumFy bodies k 0 }
    else bodies.getD k default

lemma map_getD_range (l : List Body) :
    ((List.range l.length).map fun k => l.getD k default) = l := by
  apply List.ext_getElem (by simp)
  intro n h1 h2
  rw [List.getElem_map, List.getElem_range]
  exact getD_eq_getElem l n h2

lemma postForce_length (bodies : List Body) (i : ℕ) :
    (postForce bodies i).length = bodies.length := by
  simp [postForce]

lemma postForce_getD (bodies : List Body) (i k : ℕ) (hk : k < bodies.length) :
    (postForce bodies i).getD k default
      = if i ≤ k then
          { bodies.getD k default with
            force_x := (bodies.getD k default).force_x + sumFx bodies k 0
            force_y := (bodies.getD k default).force_y + sumFy bodies k 0 }
        else bodies.getD k default := by
  unfold postForce
  rw [getD_eq_getElem _ _ (by simpa using hk)]
  rw [List.getElem_map, List.getElem_range]

lemma postForce_of_le (bodies : List Body) (i : ℕ) (h : bodies.length ≤ i) :
    postForce bodies i = bodies := by
  unfold postForce
  rw [List.map_congr_left
    (fun k hk => if_neg (by rw [List.mem_range] at hk; omega))]
  exact map_getD_range bodies

/-- Closed form of the outer force pass on a separated list. -/
lemma update_force_pass_separated :
    ∀ (fuel : ℕ) (bodies : List Body) (i : ℕ),
      bodies.length ≤ fuel + i → separated bodies → radiiNonneg bodies →
      update_force_pass fuel bodies i = postForce bodies i
  | 0, bodies, i, hfuel, _, _ => by
    show bodies = _
    rw [postForce_of_le bodies i (by omega)]
  | fuel + 1, bodies, i, hfuel, hsep, hrad => by
    by_cases hi : i < bodies.length
    · rw [update_force_pass_step fuel bodies i hi]
      have hupd : (Body.update_force bodies i).1
          = bodies.set i
              { bodies.getD i default with
                force_x := (bodies.getD i default).force_x + sumFx bodies i 0
                force_y := (bodies.getD i default).force_y + sumFy bodies i 0 } := by
        unfold Body.update_force
        rw [update_force_loop_separated bodies.length bodies i 0 (by omega) hi hsep hrad]
      rw [hupd]
      rw [update_force_pass_separated fuel _ (i + 1)
        (by rw [List.length_set]; omega)
        (separated_set_forceUpd bodies i _ _ hi hsep)
        (radiiNonneg_set_forceUpd bodies i _ _ hrad)]
      unfold postForce
      rw [List.length_set]
      apply List.map_congr_left
      intro k hk
      rw [List.mem_range] at hk
      rcases lt_trichotomy k i with hki | hki | hki
      · rw [if_neg (by omega), if_neg (by omega), getD_set_ne _ _ _ _ (by omega)]
      · subst hki
        rw [if_neg (by omega), if_pos (le_refl k), getD_set_self _ _ _ hi]
      · rw [if_pos (by omega), if_pos (by omega), getD_set_ne _ _ _ _ (by omega),
          sumFx_set_forceUpd_ne bodies 0 i k _ _ hi (by omega),
          sumFy_set_forceUpd_ne bodies 0 i k _ _ hi (by omega)]
    · rw [update_force_pass_done (fuel + 1) bodies i (by omega),
        postForce_of_le bodies i (by omega)]

/-- The whole force phase leaves a separated list in the `postForce`
closed form. -/
lemma forcePhase_separated (bodies : List Body) (hsep : separated bodies)
    (hrad : radiiNonneg bodies) : forcePhase bodies = postForce bodies 0 := by
  unfold forcePhase
  exact update_force_pass_separated bodies.length bodies 0 (by omega) hsep hrad

/-- C6 (amended): when no pair overlaps, the force phase is a pure force
accumulation — it preserves the set's length and every body's position,
radius, mass, velocity, momentum and trail. -/
theorem C6_force_phase_snapshot_without_merges (bodies : List Body)
    (hsep : separated bodies) (hrad : ∀ b ∈ bodies, 0 ≤ b.radius) :
    (forcePhase bodies).length = bodies.length ∧
    ∀ k, k < bodies.length →
      ((forcePhase bodies).getD k default).mass = (bodies.getD k default).mass ∧
      ((forcePhase bodies).getD k default).position_x = (bodies.getD k default).position_x ∧
      ((forcePhase bodies).getD k default).position_y = (bodies.getD k default).position_y ∧
      ((forcePhase bodies).getD k default).radius = (bodies.getD k default).radius ∧
      ((forcePhase bodies).getD k default).velocity_x = (bodies.getD k default).velocity_x ∧
      ((forcePhase bodies).getD k default).velocity_y = (bodies.getD k default).velocity_y ∧
      ((forcePhase bodies).getD k default).momentum_x = (bodies.getD k default).momentum_x ∧
      ((forcePhase bodies).getD k default).momentum_y = (bodies.getD k default).momentum_y ∧
      ((forcePhase bodies).getD k default).trail = (bodies.getD k default).trail := by
  rw [forcePhase_separated bodies hsep hrad]
  refine ⟨postForce_length bodies 0, ?_⟩
  intro k hk
  rw [postForce_getD bodies 0 k hk, if_pos (Nat.zero_le k)]
  exact ⟨rfl, rfl, rfl, rfl, rfl, rfl, rfl, rfl, rfl⟩

/-- First body of the separated witness pair: mass 10 at the origin with
velocity `(5,0)`. -/
def W1 : Body := mkBody 10 0 0 5 0 1

/-- Second body of the separated witness pair: mass 10 at `(100,0)`, at
rest. -/
def W2 : Body := mkBody 10 100 0 0 0 1

lemma dist_W1_W2 : Body.dist W1 W2 = 100 := by
  unfold Body.dist
  apply sqrt_eval _ 100 (by norm_num)
  norm_num [W1, W2, mkBody]

lemma separated_W : separated [W1, W2] := by
  intro i j hi hj hij
  have hi' : i < 2 := by simpa using hi
  have hj' : j < 2 := by simpa using hj
  interval_cases i <;> interval_cases j <;>
    simp only [List.getD_cons_zero, List.getD_cons_succ]
  · exact absurd rfl hij
  · rw [dist_W1_W2]
    norm_num [W1, W2, mkBody]
  · rw [Body.dist_comm, dist_W1_W2]
    norm_num [W1, W2, mkBody]
  · exact absurd rfl hij

lemma radii_W : ∀ b ∈ [W1, W2], 0 ≤ b.radius := by
  intro b hb
  simp only [List.mem_cons, List.not_mem_nil, or_false] at hb
  rcases hb with h | h <;> (rw [h]; norm_num [W1, W2, mkBody])

/-- Witness for the amended C6 at the separated pair `W1`, `W2`. -/
theorem C6_force_phase_snapshot_without_merges_witness :
    separated [W1, W2] ∧ (∀ b ∈ [W1, W2], 0 ≤ b.radius) ∧
    ((forcePhase [W1, W2]).length = ([W1, W2] : List Body).length ∧
     ∀ k, k < ([W1, W2] : List Body).length →
      ((forcePhase [W1, W2]).getD k default).mass
          = (([W1, W2] : List Body).getD k default).mass ∧
      ((forcePhase [W1, W2]).getD k default).position_x
          = (([W1, W2] : List Body).getD k default).position_x ∧
      ((forcePhase [W1, W2]).getD k default).position_y
          = (([W1, W2] : List Body).getD k default).position_y ∧
      ((forcePhase [W1, W2]).getD k default).radius
          = (([W1, W2] : List Body).getD k default).radius ∧
      ((forcePhase [W1, W2]).getD k default).velocity_x
          = (([W1, W2] : List Body).getD k default).velocity_x ∧
      ((forcePhase [W1, W2]).getD k default).velocity_y
          = (([W1, W2] : List Body).getD k default).velocity_y ∧
      ((forcePhase [W1, W2]).getD k default).momentum_x
          = (([W1, W2] : List Body).getD k default).momentum_x ∧
      ((forcePhase [W1, W2]).getD k default).momentum_y
          = (([W1, W2] : List Body).getD k default).momentum_y ∧
      ((forcePhase [W1, W2]).getD k default).trail
          = (([W1, W2] : List Body).getD k default).trail) :=
  ⟨separated_W, radii_W,
    C6_force_phase_snapshot_without_merges [W1, W2] separated_W radii_W⟩

lemma list_sum_range (n : ℕ) (f : ℕ → ℝ) :
    ((List.range n).map f).sum = ∑ k ∈ Finset.range n, f k := by
  induction n with
  | zero => simp
  | succ m ih =>
    rw [List.range_succ, List.map_append, List.sum_append, Finset.sum_range_succ, ih]
    simp

lemma list_sum_getD (l : List Body) (f : Body → ℝ) :
    (l.map f).sum = ∑ k ∈ Finset.range l.length, f (l.getD k default) := by
  induction l with
  | nil => simp
  | cons a t ih =>
    rw [List.map_cons, List.sum_cons, ih, List.length_cons, Finset.sum_range_succ']
    simp only [List.getD_cons_succ, List.getD_cons_zero]
    ring

/-- The sum over all ordered pairs of the pairwise x force increments
vanishes: the involution swapping the pair cancels each term against its
reverse (Newton's third law). -/
lemma total_sumFx (bodies : List Body) :
    (∑ k ∈ Finset.range bodies.length, sumFx bodies k 0) = 0 := by
  unfold sumFx
  rw [Finset.sum_sigma']
  refine Finset.sum_involution (fun p _ => ⟨p.2, p.1⟩) ?_ ?_ ?_ ?_
  · intro p _
    rw [fAddX_antisymm]
    ring
  · intro p hp _
    intro hcontra
    have h2 := (Finset.mem_sigma.mp hp).2
    exact (Finset.mem_erase.mp h2).1 (congrArg Sigma.fst hcontra)
  · intro p hp
    dsimp only
    obtain ⟨h1, h2⟩ := Finset.mem_sigma.mp hp
    obtain ⟨hne, hmem⟩ := Finset.mem_erase.mp h2
    rw [Finset.mem_Ico] at hmem
    rw [Finset.mem_range] at h1
    rw [Finset.mem_sigma, Finset.mem_range, Finset.mem_erase, Finset.mem_Ico]
    exact ⟨show p.snd < bodies.length by omega, fun h => hne h.symm,
      show 0 ≤ p.fst by omega, show p.fst < bodies.length by omega⟩
  · intro p _
    rfl

/-- The sum over all ordered pairs of the pairwise y force increments
vanishes. -/
lemma total_sumFy (bodies : List Body) :
    (∑ k ∈ Finset.range bodies.length, sumFy bodies k 0) = 0 := by
  unfold sumFy
  rw [Finset.sum_sigma']
  refine Finset.sum_involution (fun p _ => ⟨p.2, p.1⟩) ?_ ?_ ?_ ?_
  · intro p _
    rw [fAddY_antisymm]
    ring
  · intro p hp _
    intro hcontra
    have h2 := (Finset.mem_sigma.mp hp).2
    exact (Finset.mem_erase.mp h2).1 (congrArg Sigma.fst hcontra)
  · intro p hp
    dsimp only
    obtain ⟨h1, h2⟩ := Finset.mem_sigma.mp hp
    obtain ⟨hne, hmem⟩ := Finset.mem_erase.mp h2
    rw [Finset.mem_Ico] at hmem
    rw [Finset.mem_range] at h1
    rw [Finset.mem_sigma, Finset.mem_range, Finset.mem_erase, Finset.mem_Ico]
    exact ⟨show p.snd < bodies.length by omega, fun h => hne h.symm,
      show 0 ≤ p.fst by omega, show p.fst < bodies.length by omega⟩
  · intro p _
    rfl

lemma update_position_force_x (b : Body) (dt : ℝ) : (b.update_position dt).force_x = 0 := by
  show (0.0 : ℝ) = 0
  norm_num

lemma update_position_force_y (b : Body) (dt : ℝ) : (b.update_position dt).force_y = 0 := by
  show (0.0 : ℝ) = 0
  norm_num

lemma update_position_radius (b : Body) (dt : ℝ) : (b.update_position dt).radius = b.radius := rfl

lemma update_trail_force_x (b : Body) (fr : ℕ) : (b.update_trail fr).force_x = b.force_x := by
  unfold Body.update_trail
  dsimp only
  split <;> rfl

lemma update_trail_force_y (b : Body) (fr : ℕ) : (b.update_trail fr).force_y = b.force_y := by
  unfold Body.update_trail
  dsimp only
  split <;> rfl

lemma update_trail_radius (b : Body) (fr : ℕ) : (b.update_trail fr).radius = b.radius := by
  unfold Body.update_trail
  dsimp only
  split <;> rfl

lemma getD_mem (l : List Body) (k : ℕ) (hk : k < l.length) : l.getD k default ∈ l := by
  rw [getD_eq_getElem _ _ hk]
  exact List.getElem_mem hk

/-- Total momentum is unchanged by one tick of a separated list of bodies
with nonzero masses and zero initial force accumulators. -/
lemma tick_momentum_sep (bodies : List Body) (dt : ℝ) (fr : ℕ)
    (hm : ∀ b ∈ bodies, b.mass ≠ 0)
    (hf : ∀ b ∈ bodies, b.force_x = 0 ∧ b.force_y = 0)
    (hsep : separated bodies) (hrad : radiiNonneg bodies) :
    totalMomentumX (tick bodies dt fr) = totalMomentumX bodies ∧
    totalMomentumY (tick bodies dt fr) = totalMomentumY bodies := by
  have hfp : forcePhase bodies = postForce bodies 0 := forcePhase_separated bodies hsep hrad
  constructor
  · have hmain : totalMomentumX (tick bodies dt fr)
        = ∑ k ∈ Finset.range bodies.length,
            ((bodies.getD k default).mass * (bodies.getD k default).velocity_x
              + sumFx bodies k 0 * dt) := by
      unfold tick totalMomentumX
      rw [hfp]
      unfold postForce
      rw [List.map_map, List.map_map, list_sum_range]
      apply Finset.sum_congr rfl
      intro k hk
      rw [Finset.mem_range] at hk
      simp only [Function.comp_apply]
      rw [if_pos (Nat.zero_le k)]
      rw [update_trail_mass, update_trail_velocity_x, update_position_mass,
        update_position_velocity_x]
      dsimp only
      have hb : (bodies.getD k default).mass ≠ 0 := hm _ (getD_mem bodies k hk)
      have hbf : (bodies.getD k default).force_x = 0 := (hf _ (getD_mem bodies k hk)).1
      rw [hbf, zero_add]
      have hcan : (bodies.getD k default).mass
            * (sumFx bodies k 0 / (bodies.getD k default).mass * dt)
          = sumFx bodies k 0 * dt := by
        rw [show (bodies.getD k default).mass
              * (sumFx bodies k 0 / (bodies.getD k default).mass * dt)
            = sumFx bodies k 0 / (bodies.getD k default).mass
              * (bodies.getD k default).mass * dt from by ring,
          div_mul_cancel₀ _ hb]
      rw [mul_add, hcan]
    rw [hmain, Finset.sum_add_distrib, ← Finset.sum_mul, total_sumFx, zero_mul, add_zero]
    rw [totalMomentumX, list_sum_getD]
  · have hmain : totalMomentumY (tick bodies dt fr)
        = ∑ k ∈ Finset.range bodies.length,
            ((bodies.getD k default).mass * (bodies.getD k default).velocity_y
              + sumFy bodies k 0 * dt) := by
      unfold tick totalMomentumY
      rw [hfp]
      unfold postForce
      rw [List.map_map, List.map_map, list_sum_range]
      apply Finset.sum_congr rfl
      intro k hk
      rw [Finset.mem_range] at hk
      simp only [Function.comp_apply]
      rw [if_pos (Nat.zero_le k)]
      rw [update_trail_mass, update_trail_velocity_y, update_position_mass,
        update_position_velocity_y]
      dsimp only
      have hb : (bodies.getD k default).mass ≠ 0 := hm _ (getD_mem bodies k hk)
      have hbf : (bodies.getD k default).force_y = 0 := (hf _ (getD_mem bodies k hk)).2
      rw [hbf, zero_add]
      have hcan : (bodies.getD k default).mass
            * (sumFy bodies k 0 / (bodies.getD k default).mass * dt)
          = sumFy bodies k 0 * dt := by
        rw [show (bodies.getD k default).mass
              * (sumFy bodies k 0 / (bodies.getD k default).mass * dt)
            = sumFy bodies k 0 / (bodies.getD k default).mass
              * (bodies.getD k default).mass * dt from by ring,
          div_mul_cancel₀ _ hb]
      rw [mul_add, hcan]
    rw [hmain, Finset.sum_add_distrib, ← Finset.sum_mul, total_sumFy, zero_mul, add_zero]
    rw [totalMomentumY, list_sum_getD]

/-- After any tick every body's force accumulator is zero
(`update_position` resets it). -/
lemma tick_forces_zero (bodies : List Body) (dt : ℝ) (fr : ℕ) :
    ∀ b ∈ tick bodies dt fr, b.force_x = 0 ∧ b.force_y = 0 := by
  intro b hb
  unfold tick at hb
  rcases List.mem_map.mp hb with ⟨a, _, hab⟩
  rw [← hab]
  constructor
  · rw [update_trail_force_x, update_position_force_x]
  · rw [update_trail_force_y, update_position_force_y]

/-- Under separation, every body surviving a tick keeps mass and radius of
a body of the previous state. -/
lemma tick_mass_radius_sep (bodies : List Body) (dt : ℝ) (fr : ℕ)
    (hsep : separated bodies) (hrad : radiiNonneg bodies) :
    ∀ b ∈ tick bodies dt fr, ∃ a, a ∈ bodies ∧ b.mass = a.mass ∧ b.radius = a.radius := by
  intro b hb
  unfold tick at hb
  rw [forcePhase_separated bodies hsep hrad] at hb
  rcases List.mem_map.mp hb with ⟨a, ha, hab⟩
  unfold postForce at ha
  rcases List.mem_map.mp ha with ⟨k, hk, hka⟩
  rw [List.mem_range] at hk
  rw [if_pos (Nat.zero_le k)] at hka
  refine ⟨bodies.getD k default, getD_mem bodies k hk, ?_, ?_⟩
  · rw [← hab, update_trail_mass, update_position_mass, ← hka]
  · rw [← hab, update_trail_radius, update_position_radius, ← hka]

/-- Auxiliary induction for C2: momentum conservation over `N` merge-free
ticks together with preservation of the side conditions. -/
lemma tickN_conserved_aux (bodies : List Body) (dt : ℝ) (fr : ℕ) :
    ∀ N : ℕ,
      (∀ b ∈ bodies, b.mass ≠ 0) →
      (∀ b ∈ bodies, 0 ≤ b.radius) →
      (∀ b ∈ bodies, b.force_x = 0 ∧ b.force_y = 0) →
      (∀ k, k < N → separated (tickN bodies dt fr k)) →
      (totalMomentumX (tickN bodies dt fr N) = totalMomentumX bodies ∧
       totalMomentumY (tickN bodies dt fr N) = totalMomentumY bodies) ∧
      (∀ b ∈ tickN bodies dt fr N, b.mass ≠ 0) ∧
      (∀ b ∈ tickN bodies dt fr N, 0 ≤ b.radius) ∧
      (∀ b ∈ tickN bodies dt fr N, b.force_x = 0 ∧ b.force_y = 0)
  | 0, hm, hrad, hf, _ => ⟨⟨rfl, rfl⟩, hm, hrad, hf⟩
  | N + 1, hm, hrad, hf, hno => by
    obtain ⟨⟨hx, hy⟩, hm', hrad', hf'⟩ :=
      tickN_conserved_aux bodies dt fr N hm hrad hf (fun k hk => hno k (by omega))
    have hsepN : separated (tickN bodies dt fr N) := hno N (by omega)
    obtain ⟨gx, gy⟩ := tick_momentum_sep (tickN bodies dt fr N) dt fr hm' hf' hsepN hrad'
    refine ⟨⟨?_, ?_⟩, ?_, ?_, ?_⟩
    · show totalMomentumX (tick (tickN bodies dt fr N) dt fr) = _
      rw [gx, hx]
    · show totalMomentumY (tick (tickN bodies dt fr N) dt fr) = _
      rw [gy, hy]
    · intro b hb
      rcases tick_mass_radius_sep _ dt fr hsepN hrad' b hb with ⟨a, ha, hmass, _⟩
      rw [hmass]
      exact hm' a ha
    · intro b hb
      rcases tick_mass_radius_sep _ dt fr hsepN hrad' b hb with ⟨a, ha, _, hrada⟩
      rw [hrada]
      exact hrad' a ha
    · exact tick_forces_zero _ dt fr

/-- C2 (amended): for a BodySet of nonzero-mass bodies with nonnegative
radii and zero accumulated force, total momentum (Σ mass·velocity,
componentwise) is exactly conserved over any number `N` of ticks,
provided no pair overlaps at the start of any of those ticks (i.e. no
merge occurs during them). -/
theorem C2_momentum_conserved_without_merges (bodies : List Body) (dt : ℝ) (fr N : ℕ)
    (hm : ∀ b ∈ bodies, b.mass ≠ 0)
    (hrad : ∀ b ∈ bodies, 0 ≤ b.radius)
    (hf : ∀ b ∈ bodies, b.force_x = 0 ∧ b.force_y = 0)
    (hno : ∀ k, k < N → separated (tickN bodies dt fr k)) :
    totalMomentumX (tickN bodies dt fr N) = totalMomentumX bodies ∧
    totalMomentumY (tickN bodies dt fr N) = totalMomentumY bodies :=
  (tickN_conserved_aux bodies dt fr N hm hrad hf hno).1

/-- Witness for the amended C2 at the separated pair `W1`, `W2` over one
tick. -/
theorem C2_momentum_conserved_without_merges_witness :
    (∀ b ∈ [W1, W2], b.mass ≠ 0) ∧ (∀ b ∈ [W1, W2], 0 ≤ b.radius) ∧
    (∀ b ∈ [W1, W2], b.force_x = 0 ∧ b.force_y = 0) ∧
    (∀ k, k < 1 → separated (tickN [W1, W2] 1 60 k)) ∧
    (totalMomentumX (tickN [W1, W2] 1 60 1) = totalMomentumX [W1, W2] ∧
     totalMomentumY (tickN [W1, W2] 1 60 1) = totalMomentumY [W1, W2]) := by
  have h1 : ∀ b ∈ [W1, W2], b.mass ≠ 0 := by
    intro b hb
    simp only [List.mem_cons, List.not_mem_nil, or_false] at hb
    rcases hb with h | h <;> (rw [h]; norm_num [W1, W2, mkBody])
  have h3 : ∀ b ∈ [W1, W2], b.force_x = 0 ∧ b.force_y = 0 := by
    intro b hb
    simp only [List.mem_cons, List.not_mem_nil, or_false] at hb
    rcases hb with h | h <;> (rw [h]; norm_num [W1, W2, mkBody])
  have h4 : ∀ k, k < 1 → separated (tickN [W1, W2] 1 60 k) := by
    intro k hk
    have hk0 : k = 0 := by omega
    rw [hk0]
    exact separated_W
  exact ⟨h1, radii_W, h3, h4,
    C2_momentum_conserved_without_merges [W1, W2] 1 60 1 h1 radii_W h3 h4⟩

/-- C2: the claim says total momentum (Σ mass·velocity) is conserved across
ticks whether or not merges occur.  On `[CX, CA, CB]` the total momentum is
0 before the tick but `-100/9801` after it: `CX` received the force from
`CB`, but `CB` was absorbed into `CA` before its own force update could add
the reciprocal, so the pair's momentum transfer is one-sided. -/
theorem C2_momentum_not_conserved_under_merge :
    totalMomentumX (tick [CX, CA, CB] 1 60) ≠ totalMomentumX [CX, CA, CB] := by
  have hL : totalMomentumX (tick [CX, CA, CB] 1 60) = -(100 / 9801) := by
    unfold tick
    rw [forcePhase_CXCACB]
    unfold totalMomentumX
    simp only [List.map_cons, List.map_nil, List.sum_cons, List.sum_nil,
      update_trail_mass, update_trail_velocity_x, update_position_mass,
      update_position_velocity_x, combine_mass, combine_velocity_x, combine_force_x]
    norm_num [CX2, CA1, CX, CA, CB, mkBody]
  have hR : totalMomentumX [CX, CA, CB] = 0 := by
    unfold totalMomentumX
    simp only [List.map_cons, List.map_nil, List.sum_cons, List.sum_nil]
    norm_num [CX, CA, CB, mkBody]
  rw [hL, hR]
  norm_num

/-! ### Trail-bound machinery (C8) -/

/-- Every body in the list has trail length at most `fr`. -/
def trailsBounded (fr : ℕ) (l : List Body) : Prop := ∀ b ∈ l, b.trail.length ≤ fr

lemma trailsBounded_getD (fr : ℕ) (l : List Body) (i : ℕ) (h : trailsBounded fr l) :
    (l.getD i default).trail.length ≤ fr := by
  by_cases hi : i < l.length
  · rw [getD_eq_getElem l i hi]
    exact h _ (List.getElem_mem hi)
  · rw [getD_of_length_le l i (by omega)]
    simp [default]

lemma update_force_step_trailsBounded (fr : ℕ) (bodies : List Body) (i j : ℕ)
    (h : trailsBounded fr bodies) :
    trailsBounded fr (Body.update_force_step bodies i j).1 := by
  intro b hb
  rcases _update_force_cases (bodies.getD i default) (bodies.getD j default) with
    ⟨heq, _⟩ | ⟨hfalse, _, htrail, _⟩
  · rw [update_force_step_of_merge bodies i j heq] at hb
    have hb' := List.mem_of_mem_eraseIdx hb
    rcases List.mem_or_eq_of_mem_set hb' with hmem | hbe
    · exact h b hmem
    · rw [hbe, combine_trail]
      simp
  · rw [update_force_step_of_far bodies i j hfalse] at hb
    rcases List.mem_or_eq_of_mem_set hb with hmem | hbe
    · exact h b hmem
    · rw [hbe, htrail]
      exact trailsBounded_getD fr bodies i h

lemma update_force_loop_trailsBounded (fr : ℕ) :
    ∀ (fuel : ℕ) (bodies : List Body) (i j : ℕ), trailsBounded fr bodies →
      trailsBounded fr (Body.update_force_loop fuel bodies i j).1
  | 0, _, _, _, h => h
  | fuel + 1, bodies, i, j, h => by
    simp only [Body.update_force_loop]
    by_cases hj : j < bodies.length
    · rw [if_pos hj]
      by_cases hij : i = j
      · rw [if_pos hij]
        exact update_force_loop_trailsBounded fr fuel bodies i (j + 1) h
      · rw [if_neg hij]
        exact update_force_loop_trailsBounded fr fuel _ _ (j + 1)
          (update_force_step_trailsBounded fr bodies i j h)
    · rw [if_neg hj]
      exact h

lemma update_force_pass_trailsBounded (fr : ℕ) :
    ∀ (fuel : ℕ) (bodies : List Body) (i : ℕ), trailsBounded fr bodies →
      trailsBounded fr (update_force_pass fuel bodies i)
  | 0, _, _, h => h
  | fuel + 1, bodies, i, h => by
    simp only [update_force_pass]
    by_cases hi : i < bodies.length
    · rw [if_pos hi]
      exact update_force_pass_trailsBounded fr fuel _ (i + 1)
        (update_force_loop_trailsBounded fr bodies.length bodies i 0 h)
    · rw [if_neg hi]
      exact h

lemma update_position_trail (b : Body) (dt : ℝ) : (b.update_position dt).trail = b.trail := rfl

lemma update_trail_bound (b : Body) (fr : ℕ) (h : b.trail.length ≤ fr) :
    (b.update_trail fr).trail.length ≤ fr := by
  unfold Body.update_trail
  dsimp only
  split
  · rename_i hgt
    simp only [List.length_drop, List.length_append, List.length_cons, List.length_nil] at hgt ⊢
    omega
  · rename_i hle
    simp only [List.length_append, List.length_cons, List.length_nil] at hle ⊢
    omega

lemma tick_trailsBounded (fr : ℕ) (bodies : List Body) (dt : ℝ)
    (h : trailsBounded fr bodies) : trailsBounded fr (tick bodies dt fr) := by
  intro b hb
  unfold tick at hb
  rcases List.mem_map.mp hb with ⟨a, ha, hab⟩
  have ha' : a.trail.length ≤ fr := by
    have := update_force_pass_trailsBounded fr bodies.length bodies 0 h
    exact this a ha
  rw [← hab]
  apply update_trail_bound
  rw [update_position_trail]
  exact ha'

/-- C8: `update_trail` appends exactly the current position at the tail and
drops the single oldest entry when the length exceeds the configured
maximum; consequently, if every trail respects the bound initially, it does
so after every tick, for any number of ticks (merges reset the surviving
trail to `[]`, which also respects the bound). -/
theorem C8_trail_bound (bodies : List Body) (dt : ℝ) (fr : ℕ)
    (h : ∀ b ∈ bodies, b.trail.length ≤ fr) :
    (∀ (b : Body), (b.update_trail fr).trail
        = if fr < (b.trail ++ [(b.position_x, b.position_y)]).length
          then (b.trail ++ [(b.position_x, b.position_y)]).drop 1
          else b.trail ++ [(b.position_x, b.position_y)]) ∧
    (∀ N, ∀ b ∈ tickN bodies dt fr N, b.trail.length ≤ fr) := by
  constructor
  · intro b
    unfold Body.update_trail
    dsimp only
    by_cases hc : fr < (b.trail ++ [(b.position_x, b.position_y)]).length
    · simp only [if_pos hc]
    · simp only [if_neg hc]
  · intro N
    induction N with
    | zero => exact h
    | succ n ih =>
      exact tick_trailsBounded fr (tickN bodies dt fr n) dt ih

/-- A single resting body used as the witness configuration for C8. -/
def T1 : Body := mkBody 1 0 0 0 0 1

/-- Witness for C8: a one-body list with empty trail and bound 3. -/
theorem C8_trail_bound_witness :
    (∀ b ∈ [T1], b.trail.length ≤ 3) ∧
    (∀ N, ∀ b ∈ tickN [T1] 1 3 N, b.trail.length ≤ 3) := by
  have h : ∀ b ∈ [T1], b.trail.length ≤ 3 := by
    intro b hb
    rw [List.mem_singleton] at hb
    rw [hb]
    norm_num [T1, mkBody]
  exact ⟨h, (C8_trail_bound [T1] 1 3 h).2⟩

/-- C10: `combine` never writes to the absorbed body: every field of
`second_body` after the call is exactly its pre-merge value (its only
change of status is removal from the bodies list, handled by the caller). -/
theorem C10_combine_preserves_absorbed (a b : Body) :
    (Body.combinePair a b).2 = b ∧
    (Body.combinePair a b).2.mass = b.mass ∧
    (Body.combinePair a b).2.position_x = b.position_x ∧
    (Body.combinePair a b).2.position_y = b.position_y ∧
    (Body.combinePair a b).2.velocity_x = b.velocity_x ∧
    (Body.combinePair a b).2.velocity_y = b.velocity_y ∧
    (Body.combinePair a b).2.momentum_x = b.momentum_x ∧
    (Body.combinePair a b).2.momentum_y = b.momentum_y ∧
    (Body.combinePair a b).2.color = b.color ∧
    (Body.combinePair a b).2.trail = b.trail :=
  ⟨rfl, rfl, rfl, rfl, rfl, rfl, rfl, rfl, rfl, rfl⟩

end
